import Mathlib

set_option maxHeartbeats 1000000

/-
  Shallow embedding of the per-connection relay state machine of
  src/server.c (shadowsocks-libev server).

  The C program is an event-driven relay: a `struct server` (client side)
  and a `struct remote` (upstream side) are linked in pairs; four libev
  callbacks (server_recv_cb, server_send_cb, remote_recv_cb,
  remote_send_cb) move bytes between the two sockets through two
  fixed-size buffers (server->buf for upstream-to-client, remote->buf for
  client-to-upstream) with partial-write carry-over.

  The embedding represents one live session as an explicit record of the
  observable fields (stage, the four ev_io interest flags, the timer flag,
  the two buffers with their buf_len occupancy counters, the nullness of
  the two cross-pointers, and the parsed connect target).  Each callback
  becomes a pure function from the session state and the outcomes of the
  system calls it performs (recv, send, getpeername, connect) to an
  outcome: a new live state, a teardown (close_and_free of both sides), or
  the FATAL branch.  recv delivers the bytes as they stand in the buffer
  after the in-place decrypt_ctx / encrypt_ctx call (those transforms are
  length preserving, operating in place on the r bytes read), so cipher
  details are abstracted away; no claim below depends on them.
  Bytes are naturals (values 0..255 in the real program).
-/

namespace SSrv

def BUF_SIZE : Nat := 4096

/-- Outcome of a recv system call: 0 means peer EOF, -1 splits into
    EAGAIN/EWOULDBLOCK versus a hard error, r > 0 delivers bytes.
    `dat bs` carries the bytes as they stand in the buffer after the
    in-place cipher transform of the r = bs.length bytes read. -/
inductive RecvRes where
  | eof : RecvRes
  | again : RecvRes
  | err : RecvRes
  | dat (bs : List Nat) : RecvRes
deriving DecidableEq

/-- A recv outcome the kernel can actually produce: a data return is
    1..BUF_SIZE bytes (r = 0 is the eof case, never dat []). -/
def RecvRes.wf : RecvRes → Prop
  | RecvRes.dat bs => bs ≠ [] ∧ bs.length ≤ BUF_SIZE
  | _ => True

/-- Outcome of a send system call: -1 splits into EAGAIN/EWOULDBLOCK
    versus a hard error; otherwise 0 ≤ s bytes were accepted. -/
inductive SendRes where
  | again : SendRes
  | err : SendRes
  | sent (s : Nat) : SendRes
deriving DecidableEq

/-- One live server/remote pair, as far as the callbacks observe it.
    serverRecvOn .. remoteSendOn are the four ev_io interest flags
    (server->recv_ctx->io, server->send_ctx->io, remote->recv_ctx->io,
    remote->send_ctx->io); timerOn is remote->send_ctx->watcher;
    connected is remote->send_ctx->connected; hasRemote / hasServer model
    the nullness of server->remote and remote->server; targetHost and
    targetPort record the arguments the stage-0 parse passed to
    connect_to_remote. -/
structure Session where
  stage : Nat
  connected : Bool
  timerOn : Bool
  serverRecvOn : Bool
  serverSendOn : Bool
  remoteRecvOn : Bool
  remoteSendOn : Bool
  serverBuf : List Nat
  serverBufLen : Nat
  remoteBuf : List Nat
  remoteBufLen : Nat
  hasRemote : Bool
  hasServer : Bool
  targetHost : String
  targetPort : Nat
deriving DecidableEq

/-- Result of dispatching one callback: the session survives with a new
    state, or both sides are closed and freed (the close_and_free_remote /
    close_and_free_server teardown), or the callback hit the
    FATAL("server context error.") branch. -/
inductive Outcome where
  | live (st : Session) : Outcome
  | closed : Outcome
  | fatal : Outcome
deriving DecidableEq

/-- The partial-write carry-over loop
      char *pt = buf; char *et = pt + n;
      while (pt + s < et) { *pt = *(pt + s); pt++; }
    writes buf[i] := buf[i+s] for every i with i + s < n, reading each
    source cell before any write reaches it, so the sequential loop equals
    this simultaneous assignment. -/
def carryOver (buf : List Nat) (s n : Nat) : List Nat :=
  (List.range buf.length).map fun i =>
    if i + s < n then buf.getD (i + s) 0 else buf.getD i 0

/-- Dotted-decimal rendering of an IPv4 address held in network byte
    order, first octet first: models the inet_ntoa call on the 4 bytes at
    server->buf + 1. -/
def inet_ntoa (a b c d : Nat) : String :=
  toString a ++ "." ++ toString b ++ "." ++ toString c ++ "." ++ toString d

/-- The host string a domain (ATYP 3) header denotes: the name_len raw
    bytes copied by memcpy into the NUL-filled host buffer. -/
def domainString (bs : List Nat) : String :=
  String.mk (bs.map Char.ofNat)

/-- Result of the stage-0 address parse: the host / port strings handed to
    connect_to_remote and the offset to the first payload byte. -/
structure HostPort where
  host : String
  port : Nat
  offset : Nat
deriving DecidableEq

/-- The stage-0 header parse of server_recv_cb (lines 204-235): ATYP at
    offset 0; ATYP 1 takes 4 IPv4 bytes, ATYP 3 takes a length byte and
    that many name bytes, anything else is the error branch (none); then
    two big-endian port bytes.  The parse indexes the buffer without
    checking the parse position against the number of bytes actually
    received, exactly as the C does. -/
def parseHeader (buf : List Nat) : Option HostPort :=
  let atyp := buf.getD 0 0
  if atyp = 1 then
    some { host := inet_ntoa (buf.getD 1 0) (buf.getD 2 0) (buf.getD 3 0) (buf.getD 4 0)
           port := 256 * buf.getD 5 0 + buf.getD 6 0
           offset := 7 }
  else if atyp = 3 then
    let nameLen := buf.getD 1 0
    some { host := domainString ((buf.drop 2).take nameLen)
           port := 256 * buf.getD (2 + nameLen) 0 + buf.getD (3 + nameLen) 0
           offset := nameLen + 4 }
  else none

/-- server_recv_cb.  `rr` is the recv outcome on server->fd (bytes already
    carry the in-place decrypt_ctx transform), `so` the outcome of the
    inline send to remote->fd in the stage-5 branch, `co` whether
    connect_to_remote returned non-NULL in the stage-0 branch.  At stage
    other than 0 the recv target is remote->buf, at stage 0 it is
    server->buf; bytes of the buffer beyond r keep their previous junk
    contents. -/
def server_recv_cb (st : Session) (rr : RecvRes) (so : SendRes) (co : Bool) : Outcome :=
  match rr with
  | RecvRes.eof => Outcome.closed
  | RecvRes.again => Outcome.live st
  | RecvRes.err => Outcome.closed
  | RecvRes.dat bs =>
    let r := bs.length
    if st.stage = 5 then
      let buf := bs ++ st.remoteBuf.drop r
      match so with
      | SendRes.again =>
          Outcome.live { st with remoteBuf := buf, remoteBufLen := r,
                                 serverRecvOn := false, remoteSendOn := true }
      | SendRes.err => Outcome.closed
      | SendRes.sent s =>
          if s < r then
            Outcome.live { st with remoteBuf := carryOver buf s r,
                                   remoteBufLen := r - s,
                                   serverRecvOn := false, remoteSendOn := true }
          else
            Outcome.live { st with remoteBuf := buf }
    else if st.stage = 0 then
      let buf := bs ++ st.serverBuf.drop r
      match parseHeader buf with
      | none => Outcome.closed
      | some po =>
        if co then
          Outcome.live { st with
            serverBuf := buf,
            hasRemote := true, hasServer := true,
            serverRecvOn := false, remoteSendOn := true, timerOn := true,
            remoteBuf := if po.offset < r
                         then (buf.drop po.offset).take (r - po.offset)
                              ++ st.remoteBuf.drop (r - po.offset)
                         else st.remoteBuf,
            remoteBufLen := if po.offset < r then r - po.offset else 0,
            targetHost := po.host, targetPort := po.port,
            stage := 4 }
        else Outcome.closed
    else Outcome.fatal

/-- server_send_cb: drain of the upstream-to-client buffer server->buf.
    NULL remote closes the server; an empty buffer closes both sides; a
    partial send carries the tail over; a full send stops the write
    watcher and re-arms remote read. -/
def server_send_cb (st : Session) (so : SendRes) : Outcome :=
  if st.hasRemote = false then Outcome.closed
  else if st.serverBufLen = 0 then Outcome.closed
  else
    match so with
    | SendRes.again => Outcome.live st
    | SendRes.err => Outcome.closed
    | SendRes.sent s =>
      if s < st.serverBufLen then
        Outcome.live { st with serverBuf := carryOver st.serverBuf s st.serverBufLen,
                               serverBufLen := st.serverBufLen - s }
      else
        if st.hasRemote then
          Outcome.live { st with serverBufLen := 0,
                                 serverSendOn := false, remoteRecvOn := true }
        else Outcome.closed

/-- remote_recv_cb: read from remote->fd into server->buf, encrypt in
    place, inline send to server->fd; EAGAIN or a partial send parks the
    tail in server->buf and flips the watchers. -/
def remote_recv_cb (st : Session) (rr : RecvRes) (so : SendRes) : Outcome :=
  if st.hasServer = false then Outcome.closed
  else
    match rr with
    | RecvRes.eof => Outcome.closed
    | RecvRes.again => Outcome.live st
    | RecvRes.err => Outcome.closed
    | RecvRes.dat bs =>
      let r := bs.length
      let buf := bs ++ st.serverBuf.drop r
      match so with
      | SendRes.again =>
          Outcome.live { st with serverBuf := buf, serverBufLen := r,
                                 remoteRecvOn := false, serverSendOn := true }
      | SendRes.err => Outcome.closed
      | SendRes.sent s =>
        if s < r then
          Outcome.live { st with serverBuf := carryOver buf s r,
                                 serverBufLen := r - s,
                                 remoteRecvOn := false, serverSendOn := true }
        else
          Outcome.live { st with serverBuf := buf }

/-- The fall-through tail of remote_send_cb (lines 444-485): drain of the
    client-to-upstream buffer remote->buf. -/
def remoteDrain (st : Session) (so : SendRes) : Outcome :=
  if st.remoteBufLen = 0 then Outcome.closed
  else
    match so with
    | SendRes.again => Outcome.live st
    | SendRes.err => Outcome.closed
    | SendRes.sent s =>
      if s < st.remoteBufLen then
        Outcome.live { st with remoteBuf := carryOver st.remoteBuf s st.remoteBufLen,
                               remoteBufLen := st.remoteBufLen - s }
      else
        if st.hasServer then
          Outcome.live { st with remoteBufLen := 0,
                                 remoteSendOn := false, serverRecvOn := true }
        else Outcome.closed

/-- remote_send_cb.  `gp` is whether getpeername on remote->fd returned 0.
    Before the first success the callback is the connect-completion probe:
    success records connected, stops the timer, starts remote read, moves
    to stage 5 and, when the client-to-upstream buffer is empty, swaps the
    write watcher for the client read watcher; with pending carry-over
    bytes it falls through to the drain.  Once connected it is the plain
    drain. -/
def remote_send_cb (st : Session) (gp : Bool) (so : SendRes) : Outcome :=
  if st.hasServer = false then Outcome.closed
  else if st.connected = false then
    if gp then
      let st1 : Session := { st with connected := true, timerOn := false,
                                     remoteRecvOn := true, stage := 5 }
      if st1.remoteBufLen = 0 then
        Outcome.live { st1 with remoteSendOn := false, serverRecvOn := true }
      else remoteDrain st1 so
    else Outcome.closed
  else remoteDrain st so

/-- The session accept_cb hands to the loop: new_server initialises stage
    0, buf_len 0, remote NULL, and only the client read watcher started.
    sjunk and rjunk are the uninitialised malloc contents of the two
    buffers. -/
def initSession (sjunk rjunk : List Nat) : Session :=
  { stage := 0, connected := false, timerOn := false
    serverRecvOn := true, serverSendOn := false
    remoteRecvOn := false, remoteSendOn := false
    serverBuf := sjunk, serverBufLen := 0
    remoteBuf := rjunk, remoteBufLen := 0
    hasRemote := false, hasServer := false
    targetHost := "", targetPort := 0 }

/-- One dispatch of the event loop that leaves the session alive: any of
    the four callbacks may run whenever its ev_io interest flag is set,
    with arbitrary well-formed system-call outcomes. -/
inductive Step : Session → Session → Prop where
  | sRecv (st st' : Session) (rr : RecvRes) (so : SendRes) (co : Bool) :
      st.serverRecvOn = true → rr.wf →
      server_recv_cb st rr so co = Outcome.live st' → Step st st'
  | sSend (st st' : Session) (so : SendRes) :
      st.serverSendOn = true →
      server_send_cb st so = Outcome.live st' → Step st st'
  | rRecv (st st' : Session) (rr : RecvRes) (so : SendRes) :
      st.remoteRecvOn = true → rr.wf →
      remote_recv_cb st rr so = Outcome.live st' → Step st st'
  | rSend (st st' : Session) (gp : Bool) (so : SendRes) :
      st.remoteSendOn = true →
      remote_send_cb st gp so = Outcome.live st' → Step st st'

/-- Session states the event loop can actually reach: some run of live
    dispatches from a freshly accepted session. -/
def Reachable (st : Session) : Prop :=
  ∃ sjunk rjunk, Relation.ReflTransGen Step (initSession sjunk rjunk) st

end SSrv

namespace SSrv

/-- The inductive invariant of a live session.  Stage 0 is AwaitingHeader
    (fresh from accept_cb), stage 4 AwaitingUpstream (connect in flight,
    client read suspended, upstream write armed), stage 5 Streaming, where
    per direction the source read watcher is on exactly when the forward
    buffer is empty and the destination write watcher exactly when it is
    not. -/
def Inv (st : Session) : Prop :=
  (st.stage = 0 ∨ st.stage = 4 ∨ st.stage = 5) ∧
  (st.stage = 0 → st.hasRemote = false ∧ st.hasServer = false ∧ st.connected = false ∧
     st.serverRecvOn = true ∧ st.serverSendOn = false ∧ st.remoteRecvOn = false ∧
     st.remoteSendOn = false ∧ st.serverBufLen = 0 ∧ st.remoteBufLen = 0) ∧
  (st.stage = 4 → st.hasRemote = true ∧ st.hasServer = true ∧ st.connected = false ∧
     st.serverRecvOn = false ∧ st.serverSendOn = false ∧ st.remoteRecvOn = false ∧
     st.remoteSendOn = true ∧ st.serverBufLen = 0) ∧
  (st.stage = 5 → st.hasRemote = true ∧ st.hasServer = true ∧ st.connected = true ∧
     (st.serverRecvOn = true ↔ st.remoteBufLen = 0) ∧
     (st.remoteSendOn = true ↔ st.remoteBufLen ≠ 0) ∧
     (st.remoteRecvOn = true ↔ st.serverBufLen = 0) ∧
     (st.serverSendOn = true ↔ st.serverBufLen ≠ 0))

theorem inv_init (sjunk rjunk : List Nat) : Inv (initSession sjunk rjunk) := by
  simp [Inv, initSession]

theorem inv_server_recv (st st' : Session) (rr : RecvRes) (so : SendRes) (co : Bool)
    (hinv : Inv st) (hon : st.serverRecvOn = true) (hwf : rr.wf)
    (heq : server_recv_cb st rr so co = Outcome.live st') : Inv st' := by
  obtain ⟨hst, h0, h4, h5⟩ := hinv
  cases rr with
  | eof => simp [server_recv_cb] at heq
  | err => simp [server_recv_cb] at heq
  | again =>
      simp [server_recv_cb] at heq
      subst heq
      exact ⟨hst, h0, h4, h5⟩
  | dat bs =>
      obtain ⟨hbs, hlen⟩ := hwf
      have hbs0 : bs.length ≠ 0 := by
        intro hc
        exact hbs (List.eq_nil_of_length_eq_zero hc)
      rcases hst with h | h | h
      · -- stage 0: the header parse
        obtain ⟨hhr, hhs, hc, _, hsso, hrro, hrso, hsl, hrl⟩ := h0 h
        simp only [server_recv_cb, h] at heq
        rcases hp : parseHeader (bs ++ st.serverBuf.drop bs.length) with _ | po
        · rw [hp] at heq
          simp at heq
        · rw [hp] at heq
          cases co with
          | false => simp at heq
          | true =>
              norm_num at heq
              subst heq
              refine ⟨by simp, by simp, ?_, by simp⟩
              intro _
              simp [hhs, hc, hsso, hrro, hsl]
      · -- stage 4: excluded, client read watcher is off
        obtain ⟨_, _, _, hoff, _⟩ := h4 h
        rw [hon] at hoff
        exact absurd hoff (by simp)
      · -- stage 5: inline forward to the upstream
        obtain ⟨hhr, hhs, hc, hiff1, hiff2, hiff3, hiff4⟩ := h5 h
        have hremlen : st.remoteBufLen = 0 := hiff1.mp hon
        simp only [server_recv_cb, h] at heq
        norm_num at heq
        cases so with
        | again =>
            simp only [Outcome.live.injEq] at heq
            subst heq
            refine ⟨by simp [h], by simp [h], by simp [h], ?_⟩
            intro _
            simp [hhr, hhs, hc, hiff3, hiff4, hbs0]
        | err => simp at heq
        | sent s =>
            by_cases hs : s < bs.length
            · simp only [if_pos hs, Outcome.live.injEq] at heq
              subst heq
              refine ⟨by simp [h], by simp [h], by simp [h], ?_⟩
              intro _
              have : bs.length - s ≠ 0 := by omega
              simp [hhr, hhs, hc, hiff3, hiff4, this]
            · simp only [if_neg hs, Outcome.live.injEq] at heq
              subst heq
              refine ⟨by simp [h], by simp [h], by simp [h], ?_⟩
              intro _
              simp [hhr, hhs, hc, hiff1, hiff2, hiff3, hiff4, hon, hremlen]

end SSrv

namespace SSrv

theorem inv_server_send (st st' : Session) (so : SendRes)
    (hinv : Inv st) (hon : st.serverSendOn = true)
    (heq : server_send_cb st so = Outcome.live st') : Inv st' := by
  obtain ⟨hst, h0, h4, h5⟩ := hinv
  rcases hst with h | h | h
  · obtain ⟨_, _, _, _, hoff, _⟩ := h0 h
    rw [hon] at hoff
    exact absurd hoff (by simp)
  · obtain ⟨_, _, _, _, hoff, _⟩ := h4 h
    rw [hon] at hoff
    exact absurd hoff (by simp)
  · obtain ⟨hhr, hhs, hc, hiff1, hiff2, hiff3, hiff4⟩ := h5 h
    have hsl : st.serverBufLen ≠ 0 := hiff4.mp hon
    simp only [server_send_cb, hhr] at heq
    rw [if_neg (by simp), if_neg hsl] at heq
    cases so with
    | again =>
        simp only [Outcome.live.injEq] at heq
        subst heq
        exact ⟨Or.inr (Or.inr h), h0, h4, fun _ => ⟨hhr, hhs, hc, hiff1, hiff2, hiff3, hiff4⟩⟩
    | err => simp at heq
    | sent s =>
        by_cases hs : s < st.serverBufLen
        · simp only [if_pos hs, Outcome.live.injEq] at heq
          subst heq
          refine ⟨by simp [h], by simp [h], by simp [h], ?_⟩
          intro _
          have : st.serverBufLen - s ≠ 0 := by omega
          simp [hhr, hhs, hc, hiff1, hiff2, hiff3, hiff4, hon, hsl, this]
        · simp only [if_neg hs, hhr] at heq
          norm_num at heq
          subst heq
          refine ⟨by simp [h], by simp [h], by simp [h], ?_⟩
          intro _
          simp [hhr, hhs, hc, hiff1, hiff2]

theorem inv_remote_recv (st st' : Session) (rr : RecvRes) (so : SendRes)
    (hinv : Inv st) (hon : st.remoteRecvOn = true) (hwf : rr.wf)
    (heq : remote_recv_cb st rr so = Outcome.live st') : Inv st' := by
  obtain ⟨hst, h0, h4, h5⟩ := hinv
  rcases hst with h | h | h
  · obtain ⟨_, _, _, _, _, hoff, _⟩ := h0 h
    rw [hon] at hoff
    exact absurd hoff (by simp)
  · obtain ⟨_, _, _, _, _, hoff, _⟩ := h4 h
    rw [hon] at hoff
    exact absurd hoff (by simp)
  · obtain ⟨hhr, hhs, hc, hiff1, hiff2, hiff3, hiff4⟩ := h5 h
    have hsl : st.serverBufLen = 0 := hiff3.mp hon
    simp only [remote_recv_cb, hhs] at heq
    rw [if_neg (by simp)] at heq
    cases rr with
    | eof => simp at heq
    | err => simp at heq
    | again =>
        simp only [Outcome.live.injEq] at heq
        subst heq
        exact ⟨Or.inr (Or.inr h), h0, h4, fun _ => ⟨hhr, hhs, hc, hiff1, hiff2, hiff3, hiff4⟩⟩
    | dat bs =>
        obtain ⟨hbs, hlen⟩ := hwf
        have hbs0 : bs.length ≠ 0 := by
          intro hcon
          exact hbs (List.eq_nil_of_length_eq_zero hcon)
        cases so with
        | again =>
            simp only [Outcome.live.injEq] at heq
            subst heq
            refine ⟨by simp [h], by simp [h], by simp [h], ?_⟩
            intro _
            simp [hhr, hhs, hc, hiff1, hiff2, hbs0]
        | err => simp at heq
        | sent s =>
            by_cases hs : s < bs.length
            · simp only [if_pos hs, Outcome.live.injEq] at heq
              subst heq
              refine ⟨by simp [h], by simp [h], by simp [h], ?_⟩
              intro _
              have : bs.length - s ≠ 0 := by omega
              simp [hhr, hhs, hc, hiff1, hiff2, this]
            · simp only [if_neg hs, Outcome.live.injEq] at heq
              subst heq
              refine ⟨by simp [h], by simp [h], by simp [h], ?_⟩
              intro _
              simp [hhr, hhs, hc, hiff1, hiff2, hiff3, hiff4, hon, hsl]

theorem inv_remote_drain (st st' : Session) (so : SendRes)
    (hstage : st.stage = 5) (hinv5 : st.hasRemote = true ∧ st.hasServer = true ∧
      st.connected = true ∧
      (st.serverRecvOn = true ↔ st.remoteBufLen = 0) ∧
      (st.remoteSendOn = true ↔ st.remoteBufLen ≠ 0) ∧
      (st.remoteRecvOn = true ↔ st.serverBufLen = 0) ∧
      (st.serverSendOn = true ↔ st.serverBufLen ≠ 0))
    (hrl : st.remoteBufLen ≠ 0)
    (heq : remoteDrain st so = Outcome.live st') : Inv st' := by
  obtain ⟨hhr, hhs, hc, hiff1, hiff2, hiff3, hiff4⟩ := hinv5
  simp only [remoteDrain] at heq
  rw [if_neg hrl] at heq
  cases so with
  | again =>
      simp only [Outcome.live.injEq] at heq
      subst heq
      refine ⟨by simp [hstage], by simp [hstage], by simp [hstage], ?_⟩
      intro _
      exact ⟨hhr, hhs, hc, hiff1, hiff2, hiff3, hiff4⟩
  | err => simp at heq
  | sent s =>
      by_cases hs : s < st.remoteBufLen
      · simp only [if_pos hs, Outcome.live.injEq] at heq
        subst heq
        refine ⟨by simp [hstage], by simp [hstage], by simp [hstage], ?_⟩
        intro _
        have : st.remoteBufLen - s ≠ 0 := by omega
        simp [hhr, hhs, hc, hiff1, hiff2, hiff3, hiff4, hrl, this]
      · simp only [if_neg hs, hhs] at heq
        norm_num at heq
        subst heq
        refine ⟨by simp [hstage], by simp [hstage], by simp [hstage], ?_⟩
        intro _
        simp [hhr, hhs, hc, hiff3, hiff4]

theorem inv_remote_send (st st' : Session) (gp : Bool) (so : SendRes)
    (hinv : Inv st) (hon : st.remoteSendOn = true)
    (heq : remote_send_cb st gp so = Outcome.live st') : Inv st' := by
  obtain ⟨hst, h0, h4, h5⟩ := hinv
  rcases hst with h | h | h
  · obtain ⟨_, _, _, _, _, _, hoff, _⟩ := h0 h
    rw [hon] at hoff
    exact absurd hoff (by simp)
  · -- stage 4: the connect-completion probe
    obtain ⟨hhr, hhs, hc, hsro, hsso, hrro, _, hsl⟩ := h4 h
    simp only [remote_send_cb, hhs, hc] at heq
    rw [if_neg (by simp)] at heq
    cases gp with
    | false => simp at heq
    | true =>
        simp only [if_true] at heq
        by_cases hrl : st.remoteBufLen = 0
        · rw [if_pos (by simpa using hrl)] at heq
          simp only [Outcome.live.injEq] at heq
          subst heq
          refine ⟨by simp, by simp, by simp, ?_⟩
          intro _
          simp [hhr, hhs, hsso, hsl, hrl]
        · rw [if_neg (by simpa using hrl)] at heq
          refine inv_remote_drain _ st' so (by simp) ?_ (by simpa using hrl) heq
          simp [hhr, hhs, hsro, hsso, hrro, hrl, hsl, hon]
  · -- stage 5: the plain drain
    have h5c := h5 h
    obtain ⟨hhr, hhs, hc, hiff1, hiff2, hiff3, hiff4⟩ := h5c
    have hrl : st.remoteBufLen ≠ 0 := hiff2.mp hon
    simp only [remote_send_cb, hhs, hc] at heq
    rw [if_neg (by simp)] at heq
    exact inv_remote_drain st st' so h (h5 h) hrl heq

theorem inv_step (st st' : Session) (hinv : Inv st) (hstep : Step st st') : Inv st' := by
  cases hstep with
  | sRecv rr so co hon hwf heq => exact inv_server_recv st st' rr so co hinv hon hwf heq
  | sSend so hon heq => exact inv_server_send st st' so hinv hon heq
  | rRecv rr so hon hwf heq => exact inv_remote_recv st st' rr so hinv hon hwf heq
  | rSend gp so hon heq => exact inv_remote_send st st' gp so hinv hon heq

theorem reachable_inv (st : Session) (hr : Reachable st) : Inv st := by
  obtain ⟨sj, rj, hchain⟩ := hr
  induction hchain with
  | refl => exact inv_init sj rj
  | tail _ hstep ih => exact inv_step _ _ ih hstep

end SSrv

namespace SSrv

theorem carryOver_length (buf : List Nat) (s n : Nat) :
    (carryOver buf s n).length = buf.length := by
  simp [carryOver]

/-- The carry-over loop leaves the unsent tail buf[s..n-1] at the start of
    the buffer, in order, with no byte inserted or duplicated. -/
theorem carryOver_take (buf : List Nat) (s n : Nat)
    (hn : n ≤ buf.length) (hs : s ≤ n) :
    (carryOver buf s n).take (n - s) = (buf.take n).drop s := by
  apply List.ext_getElem
  · simp [carryOver_length]
    omega
  · intro i h1 h2
    have hi : i < n - s := by
      simp [carryOver_length] at h1
      omega
    have hilen : i < buf.length := by omega
    have hisn : i + s < n := by omega
    have hislen : i + s < buf.length := by omega
    simp only [List.getElem_take, List.getElem_drop, carryOver, List.getElem_map,
      List.getElem_range]
    rw [if_pos hisn, List.getD_eq_getElem buf 0 hislen]
    congr 1
    omega

end SSrv

namespace SSrv

/-- C1: in stage Streaming (stage = 5), after every callback dispatch
    (i.e. in every reachable stage-5 state), the source socket's read
    watcher is on exactly when that direction's forward buffer is empty
    and the destination socket's write watcher exactly when it is
    non-empty, hence exactly one of the two is enabled per direction:
    client read / upstream write against remote->buf (client-to-upstream)
    and upstream read / client write against server->buf
    (upstream-to-client). -/
theorem streaming_backpressure (st : Session)
    (hr : Reachable st) (h5 : st.stage = 5) :
    ((st.serverRecvOn = true ↔ st.remoteBufLen = 0) ∧
     (st.remoteSendOn = true ↔ st.remoteBufLen ≠ 0) ∧
     (st.remoteRecvOn = true ↔ st.serverBufLen = 0) ∧
     (st.serverSendOn = true ↔ st.serverBufLen ≠ 0)) ∧
    (st.serverRecvOn = true ↔ ¬ st.remoteSendOn = true) ∧
    (st.remoteRecvOn = true ↔ ¬ st.serverSendOn = true) := by
  obtain ⟨_, _, _, h5c⟩ := reachable_inv st hr
  obtain ⟨_, _, _, hiff1, hiff2, hiff3, hiff4⟩ := h5c h5
  refine ⟨⟨hiff1, hiff2, hiff3, hiff4⟩, ?_, ?_⟩
  · rw [hiff1, hiff2]
    tauto
  · rw [hiff3, hiff4]
    tauto

/-- The decrypted bytes of a minimal complete IPv4 header: connect to
    127.0.0.1:80, no payload. -/
def exBs : List Nat := [1, 127, 0, 0, 1, 0, 80]

/-- The AwaitingUpstream state the stage-0 dispatch of exBs produces from
    a fresh session with empty junk buffers. -/
def exSt4 : Session :=
  { stage := 4, connected := false, timerOn := true
    serverRecvOn := false, serverSendOn := false
    remoteRecvOn := false, remoteSendOn := true
    serverBuf := exBs, serverBufLen := 0
    remoteBuf := [], remoteBufLen := 0
    hasRemote := true, hasServer := true
    targetHost := "127.0.0.1", targetPort := 80 }

/-- The Streaming state the connect-completion dispatch produces from
    exSt4. -/
def exSt5 : Session :=
  { exSt4 with connected := true, timerOn := false, remoteRecvOn := true,
               stage := 5, remoteSendOn := false, serverRecvOn := true }

theorem step_init_exSt4 : Step (initSession [] []) exSt4 :=
  Step.sRecv (initSession [] []) exSt4 (RecvRes.dat exBs) SendRes.again true
    (by decide) (by exact ⟨by decide, by decide⟩) (by decide)

theorem step_exSt4_exSt5 : Step exSt4 exSt5 :=
  Step.rSend exSt4 exSt5 true SendRes.again (by decide) (by decide)

theorem exSt5_reachable : Reachable exSt5 :=
  ⟨[], [], Relation.ReflTransGen.tail
    (Relation.ReflTransGen.tail Relation.ReflTransGen.refl step_init_exSt4)
    step_exSt4_exSt5⟩

/-- Witness for C1 at the concrete reachable Streaming state exSt5. -/
theorem streaming_backpressure_witness :
    ((exSt5.serverRecvOn = true ↔ exSt5.remoteBufLen = 0) ∧
     (exSt5.remoteSendOn = true ↔ exSt5.remoteBufLen ≠ 0) ∧
     (exSt5.remoteRecvOn = true ↔ exSt5.serverBufLen = 0) ∧
     (exSt5.serverSendOn = true ↔ exSt5.serverBufLen ≠ 0)) ∧
    (exSt5.serverRecvOn = true ↔ ¬ exSt5.remoteSendOn = true) ∧
    (exSt5.remoteRecvOn = true ↔ ¬ exSt5.serverSendOn = true) :=
  streaming_backpressure exSt5 exSt5_reachable rfl

/-- C8: in every reachable state in which the client read watcher is on
    (the only states in which the loop dispatches server_recv_cb), the
    stage is 0 or 5 - stage 4 keeps that watcher off - so the fall-through
    FATAL("server context error.") branch can never run. -/
theorem server_recv_cb_no_fatal (st : Session) (hr : Reachable st)
    (hon : st.serverRecvOn = true) :
    (st.stage = 0 ∨ st.stage = 5) ∧
    ∀ (rr : RecvRes) (so : SendRes) (co : Bool),
      server_recv_cb st rr so co ≠ Outcome.fatal := by
  obtain ⟨hst, h0, h4, h5⟩ := reachable_inv st hr
  have hstage : st.stage = 0 ∨ st.stage = 5 := by
    rcases hst with h | h | h
    · exact Or.inl h
    · obtain ⟨_, _, _, hoff, _⟩ := h4 h
      rw [hon] at hoff
      exact absurd hoff (by simp)
    · exact Or.inr h
  refine ⟨hstage, ?_⟩
  intro rr so co
  cases rr with
  | eof => simp [server_recv_cb]
  | again => simp [server_recv_cb]
  | err => simp [server_recv_cb]
  | dat bs =>
      rcases hstage with h | h
      · simp only [server_recv_cb, h]
        norm_num
        rcases hp : parseHeader (bs ++ st.serverBuf.drop bs.length) with _ | po
        · simp
        · cases co <;> simp
      · simp only [server_recv_cb, h]
        norm_num
        cases so with
        | again => simp
        | err => simp
        | sent s => by_cases hs : s < bs.length <;> simp [hs]

/-- Witness for C8 at the concrete reachable state exSt5. -/
theorem server_recv_cb_no_fatal_witness :
    (exSt5.stage = 0 ∨ exSt5.stage = 5) ∧
    ∀ (rr : RecvRes) (so : SendRes) (co : Bool),
      server_recv_cb exSt5 rr so co ≠ Outcome.fatal :=
  server_recv_cb_no_fatal exSt5 exSt5_reachable rfl

end SSrv

namespace SSrv

/-- Characterisation of a successful stage-0 dispatch: with a parsed
    header and a non-NULL connect_to_remote, server_recv_cb links the
    pair, swaps the client read watcher for the upstream write watcher,
    arms the timer, copies any payload past the header into remote->buf,
    and moves to stage 4. -/
theorem stage0_dispatch (st : Session) (bs : List Nat) (so : SendRes) (po : HostPort)
    (h0 : st.stage = 0)
    (hp : parseHeader (bs ++ st.serverBuf.drop bs.length) = some po) :
    server_recv_cb st (RecvRes.dat bs) so true = Outcome.live { st with
      serverBuf := bs ++ st.serverBuf.drop bs.length,
      hasRemote := true, hasServer := true,
      serverRecvOn := false, remoteSendOn := true, timerOn := true,
      remoteBuf := if po.offset < bs.length
                   then ((bs ++ st.serverBuf.drop bs.length).drop po.offset).take
                          (bs.length - po.offset)
                        ++ st.remoteBuf.drop (bs.length - po.offset)
                   else st.remoteBuf,
      remoteBufLen := if po.offset < bs.length then bs.length - po.offset else 0,
      targetHost := po.host, targetPort := po.port,
      stage := 4 } := by
  simp only [server_recv_cb, h0]
  norm_num
  rw [hp]

/-- C2: a Streaming drain that accepts s of the n pending bytes, with
    s < n, leaves the unsent bytes buf[s..n-1] at the start of the buffer
    in their original order with no insertion or duplication, and the
    occupancy becomes n - s; stated for the server_send_cb drain of
    server->buf and the remote_send_cb drain of remote->buf. -/
theorem partial_send_carry_over (st : Session) (n s : Nat) (hlt : s < n)
    (hsl : st.serverBufLen = n) (hsb : n ≤ st.serverBuf.length)
    (hrl : st.remoteBufLen = n) (hrb : n ≤ st.remoteBuf.length)
    (hhr : st.hasRemote = true) (hhs : st.hasServer = true)
    (hc : st.connected = true) :
    (∃ st', server_send_cb st (SendRes.sent s) = Outcome.live st' ∧
       st'.serverBufLen = n - s ∧
       st'.serverBuf.take (n - s) = (st.serverBuf.take n).drop s) ∧
    (∃ st', remote_send_cb st true (SendRes.sent s) = Outcome.live st' ∧
       st'.remoteBufLen = n - s ∧
       st'.remoteBuf.take (n - s) = (st.remoteBuf.take n).drop s) := by
  constructor
  · have hn0 : st.serverBufLen ≠ 0 := by omega
    have hs' : s < st.serverBufLen := by omega
    refine ⟨{ st with serverBuf := carryOver st.serverBuf s st.serverBufLen,
                      serverBufLen := st.serverBufLen - s }, ?_, ?_, ?_⟩
    · simp [server_send_cb, hhr, hn0, hs']
    · simp [hsl]
    · show (carryOver st.serverBuf s st.serverBufLen).take (n - s) =
        (st.serverBuf.take n).drop s
      rw [hsl]
      exact carryOver_take st.serverBuf s n hsb (le_of_lt hlt)
  · have hn0 : st.remoteBufLen ≠ 0 := by omega
    have hs' : s < st.remoteBufLen := by omega
    refine ⟨{ st with remoteBuf := carryOver st.remoteBuf s st.remoteBufLen,
                      remoteBufLen := st.remoteBufLen - s }, ?_, ?_, ?_⟩
    · simp [remote_send_cb, remoteDrain, hhs, hc, hn0, hs']
    · simp [hrl]
    · show (carryOver st.remoteBuf s st.remoteBufLen).take (n - s) =
        (st.remoteBuf.take n).drop s
      rw [hrl]
      exact carryOver_take st.remoteBuf s n hrb (le_of_lt hlt)

/-- A Streaming-like state with both buffers holding 2 pending bytes. -/
def exDrainSt : Session :=
  { stage := 5, connected := true, timerOn := false
    serverRecvOn := false, serverSendOn := true
    remoteRecvOn := false, remoteSendOn := true
    serverBuf := [10, 11], serverBufLen := 2
    remoteBuf := [20, 21], remoteBufLen := 2
    hasRemote := true, hasServer := true
    targetHost := "127.0.0.1", targetPort := 80 }

/-- Witness for C2 at exDrainSt with n = 2, s = 1. -/
theorem partial_send_carry_over_witness :
    (∃ st', server_send_cb exDrainSt (SendRes.sent 1) = Outcome.live st' ∧
       st'.serverBufLen = 2 - 1 ∧
       st'.serverBuf.take (2 - 1) = (exDrainSt.serverBuf.take 2).drop 1) ∧
    (∃ st', remote_send_cb exDrainSt true (SendRes.sent 1) = Outcome.live st' ∧
       st'.remoteBufLen = 2 - 1 ∧
       st'.remoteBuf.take (2 - 1) = (exDrainSt.remoteBuf.take 2).drop 1) :=
  partial_send_carry_over exDrainSt 2 1 (by decide) (by decide) (by decide)
    (by decide) (by decide) (by decide) (by decide) (by decide)

/-- C3: the first write-ready event on the upstream socket while not yet
    connected.  getpeername failure closes the session; success stops the
    connect timer, arms upstream read, moves to stage 5 (Streaming), and:
    with an empty client-to-upstream buffer it disables upstream write
    interest and enables client read interest, while with pending
    carry-over bytes the upstream write interest stays enabled (the state
    keeps remoteSendOn) and the pending bytes are flushed by the drain
    (shown for the would-block and the partial-send outcomes). -/
theorem connect_probe_behavior (st : Session) (so : SendRes) (s : Nat)
    (hhs : st.hasServer = true) (hnc : st.connected = false)
    (h4 : st.stage = 4) (hon : st.remoteSendOn = true) :
    remote_send_cb st false so = Outcome.closed ∧
    (st.remoteBufLen = 0 →
      remote_send_cb st true so = Outcome.live { st with connected := true, timerOn := false,
                                                         remoteRecvOn := true, stage := 5,
                                                         remoteSendOn := false,
                                                         serverRecvOn := true }) ∧
    (st.remoteBufLen ≠ 0 →
      remote_send_cb st true SendRes.again = Outcome.live { st with connected := true,
                                                                    timerOn := false,
                                                                    remoteRecvOn := true,
                                                                    stage := 5 } ∧
      ({ st with connected := true, timerOn := false, remoteRecvOn := true,
                 stage := 5 } : Session).remoteSendOn = true) ∧
    (st.remoteBufLen ≠ 0 → s < st.remoteBufLen →
      ∃ st', remote_send_cb st true (SendRes.sent s) = Outcome.live st' ∧
        st'.remoteSendOn = true ∧ st'.stage = 5 ∧ st'.timerOn = false ∧
        st'.remoteRecvOn = true ∧ st'.connected = true) := by
  refine ⟨?_, ?_, ?_, ?_⟩
  · simp [remote_send_cb, hhs, hnc]
  · intro h0
    simp [remote_send_cb, hhs, hnc, h0]
  · intro h0
    constructor
    · simp [remote_send_cb, remoteDrain, hhs, hnc, h0]
    · simp [hon]
  · intro h0 hs
    refine ⟨{ st with connected := true, timerOn := false, remoteRecvOn := true, stage := 5,
                      remoteBuf := carryOver st.remoteBuf s st.remoteBufLen,
                      remoteBufLen := st.remoteBufLen - s }, ?_, by simp [hon], by simp,
      by simp, by simp, by simp⟩
    simp [remote_send_cb, remoteDrain, hhs, hnc, h0, hs]

/-- The AwaitingUpstream state exSt4 with 2 bytes of carry-over payload
    pending for the upstream. -/
def exSt4p : Session :=
  { exSt4 with remoteBuf := [9, 9], remoteBufLen := 2 }

/-- Witness for C3 at exSt4p with s = 1. -/
theorem connect_probe_behavior_witness :
    remote_send_cb exSt4p false SendRes.again = Outcome.closed ∧
    (exSt4p.remoteBufLen = 0 →
      remote_send_cb exSt4p true SendRes.again =
        Outcome.live { exSt4p with connected := true, timerOn := false, remoteRecvOn := true,
                                   stage := 5, remoteSendOn := false,
                                   serverRecvOn := true }) ∧
    (exSt4p.remoteBufLen ≠ 0 →
      remote_send_cb exSt4p true SendRes.again =
        Outcome.live { exSt4p with connected := true, timerOn := false, remoteRecvOn := true,
                                   stage := 5 } ∧
      ({ exSt4p with connected := true, timerOn := false, remoteRecvOn := true,
                     stage := 5 } : Session).remoteSendOn = true) ∧
    (exSt4p.remoteBufLen ≠ 0 → 1 < exSt4p.remoteBufLen →
      ∃ st', remote_send_cb exSt4p true (SendRes.sent 1) = Outcome.live st' ∧
        st'.remoteSendOn = true ∧ st'.stage = 5 ∧ st'.timerOn = false ∧
        st'.remoteRecvOn = true ∧ st'.connected = true) :=
  connect_probe_behavior exSt4p SendRes.again 1 (by decide) (by decide) (by decide) (by decide)

end SSrv

namespace SSrv

/-- C4: on the first client read (stage 0), when the decrypted ATYP byte
    is 1, the upstream target passed to connect_to_remote is the
    dotted-decimal rendering of the 4 bytes at offsets 1..4 of the
    decrypted buffer, and the port is the big-endian 16-bit value
    256 * buf[5] + buf[6]. -/
theorem ipv4_header_target (st : Session) (bs : List Nat) (so : SendRes)
    (h0 : st.stage = 0)
    (hat : (bs ++ st.serverBuf.drop bs.length).getD 0 0 = 1) :
    ∃ st', server_recv_cb st (RecvRes.dat bs) so true = Outcome.live st' ∧
      st'.targetHost = inet_ntoa ((bs ++ st.serverBuf.drop bs.length).getD 1 0)
          ((bs ++ st.serverBuf.drop bs.length).getD 2 0)
          ((bs ++ st.serverBuf.drop bs.length).getD 3 0)
          ((bs ++ st.serverBuf.drop bs.length).getD 4 0) ∧
      st'.targetPort = 256 * (bs ++ st.serverBuf.drop bs.length).getD 5 0 +
          (bs ++ st.serverBuf.drop bs.length).getD 6 0 := by
  have hp : parseHeader (bs ++ st.serverBuf.drop bs.length) =
      some { host := inet_ntoa ((bs ++ st.serverBuf.drop bs.length).getD 1 0)
                       ((bs ++ st.serverBuf.drop bs.length).getD 2 0)
                       ((bs ++ st.serverBuf.drop bs.length).getD 3 0)
                       ((bs ++ st.serverBuf.drop bs.length).getD 4 0)
             port := 256 * (bs ++ st.serverBuf.drop bs.length).getD 5 0 +
                       (bs ++ st.serverBuf.drop bs.length).getD 6 0
             offset := 7 } := by
    simp only [parseHeader]
    rw [if_pos hat]
  exact ⟨_, stage0_dispatch st bs so _ h0 hp, by simp, by simp⟩

/-- Witness for C4: a fresh session reading the complete IPv4 header
    exBs, which denotes 127.0.0.1:80. -/
theorem ipv4_header_target_witness :
    ∃ st', server_recv_cb (initSession [] []) (RecvRes.dat exBs) SendRes.again true =
        Outcome.live st' ∧
      st'.targetHost = inet_ntoa ((exBs ++ (initSession [] []).serverBuf.drop exBs.length).getD 1 0)
          ((exBs ++ (initSession [] []).serverBuf.drop exBs.length).getD 2 0)
          ((exBs ++ (initSession [] []).serverBuf.drop exBs.length).getD 3 0)
          ((exBs ++ (initSession [] []).serverBuf.drop exBs.length).getD 4 0) ∧
      st'.targetPort = 256 * (exBs ++ (initSession [] []).serverBuf.drop exBs.length).getD 5 0 +
          (exBs ++ (initSession [] []).serverBuf.drop exBs.length).getD 6 0 :=
  ipv4_header_target (initSession [] []) exBs SendRes.again rfl (by decide)

/-- C5: on a successful stage-0 parse whose read returned r bytes with
    r greater than the header length po.offset, the r - po.offset
    decrypted bytes past the header are copied to the front of
    remote->buf and its occupancy is set to r - po.offset, preserving the
    piggybacked initial payload for the upstream. -/
theorem piggyback_payload_preserved (st : Session) (bs : List Nat) (so : SendRes)
    (po : HostPort) (h0 : st.stage = 0)
    (hp : parseHeader (bs ++ st.serverBuf.drop bs.length) = some po)
    (hoff : po.offset < bs.length) :
    ∃ st', server_recv_cb st (RecvRes.dat bs) so true = Outcome.live st' ∧
      st'.remoteBufLen = bs.length - po.offset ∧
      st'.remoteBuf.take (bs.length - po.offset) = bs.drop po.offset := by
  refine ⟨_, stage0_dispatch st bs so po h0 hp, by simp [hoff], ?_⟩
  show ((if po.offset < bs.length
         then ((bs ++ st.serverBuf.drop bs.length).drop po.offset).take (bs.length - po.offset)
              ++ st.remoteBuf.drop (bs.length - po.offset)
         else st.remoteBuf).take (bs.length - po.offset)) = bs.drop po.offset
  rw [if_pos hoff]
  have hlen1 : (bs.drop po.offset).length = bs.length - po.offset := by simp
  have h1 : (bs ++ st.serverBuf.drop bs.length).drop po.offset =
      bs.drop po.offset ++ st.serverBuf.drop bs.length :=
    List.drop_append_of_le_length (le_of_lt hoff)
  have h2 : ((bs ++ st.serverBuf.drop bs.length).drop po.offset).take (bs.length - po.offset) =
      bs.drop po.offset := by
    rw [h1]
    exact List.take_left' hlen1
  rw [h2]
  exact List.take_left' hlen1

/-- The exBs header followed by a 2-byte piggybacked payload. -/
def exBsP : List Nat := [1, 127, 0, 0, 1, 0, 80, 100, 101]

/-- Witness for C5: a fresh session reading exBsP (r = 9, header length
    7); the payload [100, 101] lands at the front of remote->buf. -/
theorem piggyback_payload_preserved_witness :
    ∃ st', server_recv_cb (initSession [] []) (RecvRes.dat exBsP) SendRes.again true =
        Outcome.live st' ∧
      st'.remoteBufLen = exBsP.length - 7 ∧
      st'.remoteBuf.take (exBsP.length - 7) = exBsP.drop 7 :=
  piggyback_payload_preserved (initSession [] []) exBsP SendRes.again
    { host := "127.0.0.1", port := 80, offset := 7 } rfl (by decide) (by decide)

/-- C6: on the first client read (stage 0), a decrypted ATYP byte that is
    neither 1 nor 3 (e.g. the reserved 2 or the IPv6 4) takes the error
    branch: the session is closed without connecting upstream, whatever
    the connect oracle would have said. -/
theorem unknown_atyp_closes (st : Session) (bs : List Nat) (so : SendRes) (co : Bool)
    (h0 : st.stage = 0)
    (h1 : (bs ++ st.serverBuf.drop bs.length).getD 0 0 ≠ 1)
    (h3 : (bs ++ st.serverBuf.drop bs.length).getD 0 0 ≠ 3) :
    server_recv_cb st (RecvRes.dat bs) so co = Outcome.closed := by
  have hp : parseHeader (bs ++ st.serverBuf.drop bs.length) = none := by
    simp only [parseHeader]
    rw [if_neg h1, if_neg h3]
  simp only [server_recv_cb, h0]
  norm_num
  rw [hp]

/-- Witness for C6: the reserved ATYP 2 closes a fresh session. -/
theorem unknown_atyp_closes_witness :
    server_recv_cb (initSession [] []) (RecvRes.dat [2, 0, 80]) SendRes.again true =
      Outcome.closed :=
  unknown_atyp_closes (initSession [] []) [2, 0, 80] SendRes.again true rfl
    (by decide) (by decide)

end SSrv

namespace SSrv

/-- A fresh session whose 4096-byte malloc buffer is modelled by 8 junk
    bytes of value 7 (only the first 8 cells matter to a 1-byte read). -/
def shortReadSt : Session := initSession (List.replicate 8 7) []

/-- C7 counterexample: a first read that returns only the single ATYP
    byte 1 (fewer bytes than any complete address header) is NOT torn
    down cleanly: server_recv_cb parses the junk bytes beyond the read,
    connects upstream to 7.7.7.7:1799 (derived entirely from data outside
    the bytes actually read), and moves to stage 4. -/
theorem short_header_counterexample :
    server_recv_cb shortReadSt (RecvRes.dat [1]) SendRes.again true ≠ Outcome.closed ∧
    server_recv_cb shortReadSt (RecvRes.dat [1]) SendRes.again true =
      Outcome.live { shortReadSt with
                     serverBuf := [1, 7, 7, 7, 7, 7, 7, 7],
                     hasRemote := true, hasServer := true,
                     serverRecvOn := false, remoteSendOn := true, timerOn := true,
                     targetHost := "7.7.7.7", targetPort := 1799,
                     stage := 4 } := by
  constructor
  · decide
  · decide

/-- C7 amended: a first read shorter than the complete address header is
    not detected - the parse never compares the header length with the
    number of bytes read.  In particular, when the decrypted first byte
    is ATYP 1 and connect_to_remote succeeds, the session is not torn
    down: the parse consumes buffer cells beyond the bytes actually read
    and the session proceeds to stage 4 with an upstream target derived
    from those unread cells. -/
theorem short_header_connects_anyway (st : Session) (bs : List Nat) (so : SendRes)
    (h0 : st.stage = 0) (hshort : bs.length < 7)
    (hat : (bs ++ st.serverBuf.drop bs.length).getD 0 0 = 1) :
    ∃ st', server_recv_cb st (RecvRes.dat bs) so true = Outcome.live st' ∧
      st'.stage = 4 ∧ st'.hasRemote = true ∧
      st'.targetHost = inet_ntoa ((bs ++ st.serverBuf.drop bs.length).getD 1 0)
          ((bs ++ st.serverBuf.drop bs.length).getD 2 0)
          ((bs ++ st.serverBuf.drop bs.length).getD 3 0)
          ((bs ++ st.serverBuf.drop bs.length).getD 4 0) := by
  have hp : parseHeader (bs ++ st.serverBuf.drop bs.length) =
      some { host := inet_ntoa ((bs ++ st.serverBuf.drop bs.length).getD 1 0)
                       ((bs ++ st.serverBuf.drop bs.length).getD 2 0)
                       ((bs ++ st.serverBuf.drop bs.length).getD 3 0)
                       ((bs ++ st.serverBuf.drop bs.length).getD 4 0)
             port := 256 * (bs ++ st.serverBuf.drop bs.length).getD 5 0 +
                       (bs ++ st.serverBuf.drop bs.length).getD 6 0
             offset := 7 } := by
    simp only [parseHeader]
    rw [if_pos hat]
  exact ⟨_, stage0_dispatch st bs so _ h0 hp, by simp, by simp, by simp⟩

/-- Witness for the amended C7 at the concrete 1-byte read of
    shortReadSt. -/
theorem short_header_connects_anyway_witness :
    ∃ st', server_recv_cb shortReadSt (RecvRes.dat [1]) SendRes.again true =
        Outcome.live st' ∧
      st'.stage = 4 ∧ st'.hasRemote = true ∧
      st'.targetHost = inet_ntoa (([1] ++ shortReadSt.serverBuf.drop 1).getD 1 0)
          (([1] ++ shortReadSt.serverBuf.drop 1).getD 2 0)
          (([1] ++ shortReadSt.serverBuf.drop 1).getD 3 0)
          (([1] ++ shortReadSt.serverBuf.drop 1).getD 4 0) :=
  short_header_connects_anyway shortReadSt [1] SendRes.again rfl (by decide) (by decide)

/-- The server/remote pair as free_remote (lines 507-517) and free_server
    (lines 560-574) see it: whether each record is still allocated, and
    whether server->remote / remote->server are non-null. -/
structure PairState where
  serverLive : Bool
  remoteLive : Bool
  serverRemote : Bool
  remoteServer : Bool
deriving DecidableEq

/-- free_remote: if remote->server is non-null, NULL that server's remote
    pointer first, then release the remote's memory (its own fields die
    with it). -/
def free_remote (p : PairState) : PairState :=
  { p with serverRemote := if p.remoteServer then false else p.serverRemote,
           remoteLive := false, remoteServer := false }

/-- free_server: if server->remote is non-null, NULL that remote's server
    pointer first, then release the server's memory. -/
def free_server (p : PairState) : PairState :=
  { p with remoteServer := if p.serverRemote then false else p.remoteServer,
           serverLive := false, serverRemote := false }

/-- No live record holds a pointer to a freed peer. -/
def noDangling (p : PairState) : Prop :=
  (p.serverLive = true → p.serverRemote = true → p.remoteLive = true) ∧
  (p.remoteLive = true → p.remoteServer = true → p.serverLive = true)

/-- C9: for a linked pair (both live, mutual pointers), freeing either
    endpoint nulls the back-reference in the still-live peer, so after
    one side is freed the survivor's back-pointer is null and no dangling
    peer reference is observable. -/
theorem peer_backref_cleared (p : PairState)
    (hs : p.serverLive = true) (hr : p.remoteLive = true)
    (hsr : p.serverRemote = true) (hrs : p.remoteServer = true) :
    ((free_remote p).serverRemote = false ∧ (free_remote p).serverLive = true ∧
     (free_remote p).remoteLive = false ∧ noDangling (free_remote p)) ∧
    ((free_server p).remoteServer = false ∧ (free_server p).remoteLive = true ∧
     (free_server p).serverLive = false ∧ noDangling (free_server p)) := by
  simp [free_remote, free_server, noDangling, hs, hr, hsr, hrs]

/-- Witness for C9 at the fully linked pair. -/
theorem peer_backref_cleared_witness :
    ((free_remote ⟨true, true, true, true⟩).serverRemote = false ∧
     (free_remote ⟨true, true, true, true⟩).serverLive = true ∧
     (free_remote ⟨true, true, true, true⟩).remoteLive = false ∧
     noDangling (free_remote ⟨true, true, true, true⟩)) ∧
    ((free_server ⟨true, true, true, true⟩).remoteServer = false ∧
     (free_server ⟨true, true, true, true⟩).remoteLive = true ∧
     (free_server ⟨true, true, true, true⟩).serverLive = false ∧
     noDangling (free_server ⟨true, true, true, true⟩)) :=
  peer_backref_cleared ⟨true, true, true, true⟩ rfl rfl rfl rfl

/-- C10: a recv that returns 0 (peer EOF) on either socket tears the
    session down immediately and unconditionally - in every state,
    whatever the stage and whatever undelivered bytes the opposite
    direction's buffer still holds, both endpoints are closed and freed
    and those bytes are discarded with them. -/
theorem eof_teardown_unconditional (st : Session) (so : SendRes) (co : Bool) :
    server_recv_cb st RecvRes.eof so co = Outcome.closed ∧
    remote_recv_cb st RecvRes.eof so = Outcome.closed := by
  constructor
  · rfl
  · cases h : st.hasServer <;> simp [remote_recv_cb, h]

end SSrv
